import Mathlib

/-!
Shallow embedding of `pool.go` (package pool): a bounded pool of closeable
resources with operations `New`, `Acquire`, `Release`, `Close`.

The Go channel `resources chan io.Closer` is modelled by three pieces of
data: its buffered contents (a FIFO list, head received first), its
capacity, and its closed bit (`chClosed`).  Go channel semantics embedded
here:
  - a receive inside `select` is ready iff the buffer is nonempty or the
    channel is closed; a receive on a closed, drained channel yields the
    zero value (the nil interface) with `ok = false`;
  - a send inside `select` is ready iff the buffer has free space or the
    channel is closed; a send on a closed channel panics;
  - `for r := range ch` drains the remaining buffered values.
Calling `Close()` on the nil interface value panics.  Panics are modelled
as `Except.error ()`; every operation that may call a resource's `Close`
also returns the list of resources whose `Close` it invoked, in order.
-/

/-- Errors of the pool package. `poolClosed` models `ErrPoolClosed`,
`invalidSize` the constructor's `Invalid size value: too small` error, and
`other` stands for an arbitrary error value a user factory may return. -/
inductive GoErr where
  | poolClosed
  | invalidSize
  | other (n : Nat)
  deriving DecidableEq, Repr

/-- ErrPoolClosed is returned when an Acquire returns on a closed pool. -/
def ErrPoolClosed : GoErr := GoErr.poolClosed

/-- A Go `io.Closer` interface value: either the nil interface value or a
concrete resource tagged by a value of `α`. -/
inductive Res (α : Type) where
  | nilRes : Res α
  | mk : α → Res α
  deriving DecidableEq, Repr

/-- Invoking `r.Close()`: on the nil interface value this is a runtime
panic (`Except.error ()`); otherwise it returns.  The error value a real
`Close` may report is discarded by the pool on every path, so it is not
modelled. -/
def closeRes {α : Type} (r : Res α) : Except Unit Unit :=
  match r with
  | Res.nilRes => Except.error ()
  | Res.mk _ => Except.ok ()

/-- The `Pool` struct of `pool.go`.  `resources`, `capacity` and
`chClosed` together model the buffered channel; `factory` and `closed`
are the remaining fields.  The mutex is not represented: the embedding is
sequential, each operation runs atomically. -/
structure Pool (α : Type) where
  resources : List (Res α)
  capacity : Nat
  chClosed : Bool
  factory : Unit → Res α × Option GoErr
  closed : Bool

/-- `New` creates a pool that manages resources.  `size` is the Go `uint`
argument modelled as `Nat`, so the guard `size <= 0` holds exactly when
`size = 0`. -/
def New {α : Type} (fn : Unit → Res α × Option GoErr) (size : Nat) :
    Except GoErr (Pool α) :=
  if size ≤ 0 then Except.error GoErr.invalidSize
  else Except.ok
    { resources := [], capacity := size, chClosed := false,
      factory := fn, closed := false }

/-- `Acquire` retrieves a resource from the pool.  The `select` takes the
receive case whenever it is ready: a buffered value is returned with
`ok = true`; on a closed drained channel the receive is ready with
`ok = false`, giving `(nil, ErrPoolClosed)`.  Only when the buffer is
empty and the channel is open does the `default` branch invoke the
factory, whose `(resource, error)` pair is returned verbatim.  The result
records the returned pair, the new pool state, and whether the factory
was invoked. -/
def Pool.Acquire {α : Type} (p : Pool α) :
    (Res α × Option GoErr) × Pool α × Bool :=
  match p.resources with
  | r :: rest => ((r, none), { p with resources := rest }, false)
  | [] =>
    if p.chClosed then ((Res.nilRes, some ErrPoolClosed), p, false)
    else (p.factory (), p, true)

/-- `Release` places a resource back into the pool.  Under the mutex: if
the pool is closed, discard (`r.Close()`); otherwise the `select` either
sends into the buffer (free space), panics (channel closed while the flag
is unset — unreachable from `New`), or discards on a full buffer. -/
def Pool.Release {α : Type} (p : Pool α) (r : Res α) :
    Except Unit (Pool α × List (Res α)) :=
  if p.closed then
    match closeRes r with
    | Except.error e => Except.error e
    | Except.ok _ => Except.ok (p, [r])
  else if p.chClosed then Except.error ()
  else if p.resources.length < p.capacity then
    Except.ok ({ p with resources := p.resources ++ [r] }, [])
  else
    match closeRes r with
    | Except.error e => Except.error e
    | Except.ok _ => Except.ok (p, [r])

/-- The drain loop `for r := range p.resources { r.Close() }` of `Close`:
closes each buffered resource in order, panicking at the first nil
interface value, and returns the list of resources it closed. -/
def drainAll {α : Type} : List (Res α) → Except Unit (List (Res α))
  | [] => Except.ok []
  | r :: rest =>
    match closeRes r with
    | Except.error _ => Except.error ()
    | Except.ok _ =>
      match drainAll rest with
      | Except.error _ => Except.error ()
      | Except.ok cs => Except.ok (r :: cs)

/-- `Close` shuts down the pool and closes all buffered resources: if not
already closed, it sets `closed`, closes the channel, and drains it. -/
def Pool.Close {α : Type} (p : Pool α) :
    Except Unit (Pool α × List (Res α)) :=
  if p.closed then Except.ok (p, [])
  else
    match drainAll p.resources with
    | Except.error _ => Except.error ()
    | Except.ok cs =>
      Except.ok ({ p with resources := [], chClosed := true, closed := true }, cs)

/-- Iterate `Acquire` `n` times, collecting the returned pairs, the final
pool state, and how many of the calls invoked the factory. -/
def Pool.acquireN {α : Type} :
    Pool α → Nat → List (Res α × Option GoErr) × Pool α × Nat
  | p, 0 => ([], p, 0)
  | p, n + 1 =>
    let s := p.Acquire
    let t := Pool.acquireN s.2.1 n
    (s.1 :: t.1, t.2.1, (if s.2.2 then 1 else 0) + t.2.2)

/- Concrete instances used to exercise the definitions. -/

/-- A sample factory producing the resource tagged `7` and no error. -/
def f1 : Unit → Res Nat × Option GoErr := fun _ => (Res.mk 7, none)

/-- A fresh empty pool of capacity 2 with factory `f1`. -/
def Pempty : Pool Nat :=
  { resources := [], capacity := 2, chClosed := false, factory := f1,
    closed := false }

/-- A pool of capacity 2 holding one buffered resource. -/
def Pone : Pool Nat :=
  { resources := [Res.mk 1], capacity := 2, chClosed := false,
    factory := f1, closed := false }

/-- A pool of capacity 2 whose buffer is full. -/
def Pfull : Pool Nat :=
  { resources := [Res.mk 1, Res.mk 2], capacity := 2, chClosed := false,
    factory := f1, closed := false }

/-- The pool obtained from `Pempty` after `Close`: drained, channel
closed, flag set. -/
def Pclosed : Pool Nat :=
  { resources := [], capacity := 2, chClosed := true, factory := f1,
    closed := true }

/- Helper lemmas shared by the claims. -/

/-- A successful drain closes exactly the buffered resources, in order. -/
theorem drainAll_ok {α : Type} :
    ∀ (rs cs : List (Res α)), drainAll rs = Except.ok cs → cs = rs := by
  intro rs
  induction rs with
  | nil => intro cs h; simpa [drainAll] using h.symm
  | cons r rest ih =>
    intro cs h
    cases r with
    | nilRes => simp [drainAll, closeRes] at h
    | mk a =>
      cases hd : drainAll rest with
      | error e => rw [drainAll, closeRes, hd] at h; cases h
      | ok cs' =>
        rw [drainAll, closeRes, hd] at h
        cases h
        rw [ih cs' hd]

/-- When the buffer holds no nil interface value, the drain succeeds and
closes exactly the buffered resources, in order. -/
theorem drainAll_eq_ok {α : Type} (rs : List (Res α))
    (h : Res.nilRes ∉ rs) : drainAll rs = Except.ok rs := by
  induction rs with
  | nil => rfl
  | cons r rest ih =>
    cases r with
    | nilRes => exact absurd (List.mem_cons_self _ _) h
    | mk a =>
      rw [drainAll, closeRes, ih (fun hm => h (List.mem_cons_of_mem _ hm))]

/-- Inversion of a successful `Close` on a not-yet-closed pool: the
resulting state is drained, channel-closed and flagged, and the closed
resources are exactly the buffered ones. -/
theorem Close_ok_inv {α : Type} {p p' : Pool α} {cs : List (Res α)}
    (hc : p.closed = false) (h : p.Close = Except.ok (p', cs)) :
    p' = { p with resources := [], chClosed := true, closed := true } ∧
      cs = p.resources := by
  rw [Pool.Close, hc] at h
  simp only [Bool.false_eq_true, if_false] at h
  cases hd : drainAll p.resources with
  | error e => rw [hd] at h; cases h
  | ok cs' =>
    rw [hd] at h
    cases h
    exact ⟨rfl, drainAll_ok _ _ hd⟩

/-- Acquiring exactly as many times as there are buffered resources, on a
pool whose channel is open, returns each buffered resource (with no
error) in FIFO order, never invokes the factory, and empties the
buffer. -/
theorem acquireN_buffered {α : Type} :
    ∀ (rs : List (Res α)) (p : Pool α), p.resources = rs →
      p.chClosed = false →
      p.acquireN rs.length =
        (rs.map (fun r => (r, (none : Option GoErr))),
          { p with resources := [] }, 0) := by
  intro rs
  induction rs with
  | nil =>
    intro p hp hch
    cases p
    simp only at hp
    subst hp
    rfl
  | cons r rest ih =>
    intro p hp hch
    cases p with
    | mk res cap chc fn cl =>
      simp only at hp hch
      subst hp; subst hch
      have step := ih ⟨rest, cap, false, fn, cl⟩ rfl rfl
      simp only [List.length_cons, Pool.acquireN, Pool.Acquire]
      rw [step]
      simp

/-- Acquiring any number of times on a drained, channel-closed pool
returns `(nil, ErrPoolClosed)` every time, never invokes the factory, and
leaves the pool unchanged. -/
theorem acquireN_closedPool {α : Type} (p : Pool α)
    (hch : p.chClosed = true) (hres : p.resources = []) :
    ∀ n, p.acquireN n =
      (List.replicate n (Res.nilRes, some ErrPoolClosed), p, 0) := by
  intro n
  induction n with
  | zero => rfl
  | succ n ih =>
    simp only [Pool.acquireN, Pool.Acquire, hres, hch, if_true, ih,
      List.replicate]
    simp

/-- C1, counterexample: on a pool reached by `New` followed by a completed
`Close` — with no racing call — `Acquire` does return the `PoolClosed`
error and does not invoke the factory, contrary to the claim that it
would fall through to the factory. -/
theorem C1_counterexample :
    New f1 2 = Except.ok Pempty ∧
    Pempty.Close = Except.ok (Pclosed, []) ∧
    Pclosed.Acquire = ((Res.nilRes, some ErrPoolClosed), Pclosed, false) ∧
    (Pclosed.Acquire).1.2 = some ErrPoolClosed ∧
    (Pclosed.Acquire).2.2 = false :=
  ⟨rfl, rfl, rfl, rfl, rfl⟩

/-- C1, amended: an `Acquire` on an already-closed Pool (drained buffer,
channel closed) returns the nil resource with the `PoolClosed` error and
does not invoke the factory: the receive from the closed, drained channel
is always ready, so the error is not limited to calls racing a concurrent
`Close`. -/
theorem C1_acquire_closed_drained {α : Type} (p : Pool α)
    (hch : p.chClosed = true) (hres : p.resources = []) :
    p.Acquire = ((Res.nilRes, some ErrPoolClosed), p, false) := by
  cases p with
  | mk res cap chc fn cl =>
    simp only at hch hres
    subst hch; subst hres
    rfl

/-- C1, witness at the drained closed pool `Pclosed`. -/
theorem C1_witness :
    Pclosed.chClosed = true ∧ Pclosed.resources = [] ∧
    Pclosed.Acquire = ((Res.nilRes, some ErrPoolClosed), Pclosed, false) :=
  ⟨rfl, rfl, C1_acquire_closed_drained Pclosed rfl rfl⟩

/-- C2: the first `Close` on a not-yet-closed pool (holding no nil
interface value) sets the `closed` flag, closes the channel, empties the
buffer, and invokes the close operation exactly once per resource that
was buffered when it began — the list of closed resources is exactly the
initial buffer. -/
theorem C2_close_drains {α : Type} (p : Pool α) (hc : p.closed = false)
    (hnil : Res.nilRes ∉ p.resources) :
    p.Close = Except.ok
      ({ p with resources := [], chClosed := true, closed := true },
        p.resources) := by
  rw [Pool.Close, hc, drainAll_eq_ok _ hnil]
  simp

/-- C2, witness: closing the full two-resource pool closes exactly its
two buffered resources and empties the buffer. -/
theorem C2_witness :
    Pfull.closed = false ∧ Res.nilRes ∉ Pfull.resources ∧
    Pfull.Close = Except.ok
      ({ Pfull with resources := [], chClosed := true, closed := true },
        Pfull.resources) :=
  ⟨rfl, by decide, C2_close_drains Pfull rfl (by decide)⟩

/-- C3: `Close` is idempotent — after any successful `Close`, the pool is
marked closed and a second `Close` is a no-op that closes no resource and
leaves the state unchanged. -/
theorem C3_close_idempotent {α : Type} (p p' : Pool α) (cs : List (Res α))
    (h : p.Close = Except.ok (p', cs)) :
    p'.closed = true ∧ p'.Close = Except.ok (p', []) := by
  by_cases hc : p.closed = true
  · rw [Pool.Close, hc] at h
    simp only [if_true, Except.ok.injEq, Prod.mk.injEq] at h
    obtain ⟨h1, -⟩ := h
    subst h1
    exact ⟨hc, by rw [Pool.Close, hc]; simp⟩
  · have hc' : p.closed = false := by simpa using hc
    obtain ⟨hp', -⟩ := Close_ok_inv hc' h
    subst hp'
    exact ⟨rfl, by rw [Pool.Close]; simp⟩

/-- C3, witness: closing `Pempty` then closing again changes nothing and
closes nothing. -/
theorem C3_witness :
    Pempty.Close = Except.ok (Pclosed, []) ∧
    Pclosed.closed = true ∧ Pclosed.Close = Except.ok (Pclosed, []) :=
  ⟨rfl, (C3_close_idempotent Pempty Pclosed [] rfl).1,
    (C3_close_idempotent Pempty Pclosed [] rfl).2⟩

/-- C4: releasing a (non-nil) resource into a non-closed pool whose
buffer is full invokes that resource's close operation exactly once
without blocking and leaves the pool — in particular the buffer, still at
`capacity` — unchanged; moreover `Release` never grows any buffer beyond
its capacity. -/
theorem C4_overflow_discard {α : Type} (p : Pool α) (r : Res α)
    (hc : p.closed = false) (hch : p.chClosed = false)
    (hfull : p.resources.length = p.capacity) (hr : r ≠ Res.nilRes) :
    p.Release r = Except.ok (p, [r]) ∧
    ∀ (q q' : Pool α) (s : Res α) (cs : List (Res α)),
      q.resources.length ≤ q.capacity → q.Release s = Except.ok (q', cs) →
      q'.resources.length ≤ q.capacity := by
  constructor
  · cases r with
    | nilRes => exact absurd rfl hr
    | mk a =>
      rw [Pool.Release, hc, hch]
      simp [hfull, closeRes]
  · intro q q' s cs hq h
    rw [Pool.Release] at h
    by_cases hqc : q.closed = true
    · rw [hqc] at h
      simp only [if_true] at h
      cases s with
      | nilRes => simp [closeRes] at h
      | mk a =>
        simp only [closeRes, Except.ok.injEq, Prod.mk.injEq] at h
        obtain ⟨h1, -⟩ := h
        subst h1
        exact hq
    · have hqc' : q.closed = false := by simpa using hqc
      rw [hqc'] at h
      simp only [Bool.false_eq_true, if_false] at h
      by_cases hqch : q.chClosed = true
      · rw [hqch] at h
        simp at h
      · have hqch' : q.chClosed = false := by simpa using hqch
        rw [hqch'] at h
        simp only [Bool.false_eq_true, if_false] at h
        by_cases hlt : q.resources.length < q.capacity
        · rw [if_pos hlt] at h
          simp only [Except.ok.injEq, Prod.mk.injEq] at h
          obtain ⟨h1, -⟩ := h
          subst h1
          simpa using hlt
        · rw [if_neg hlt] at h
          cases s with
          | nilRes => simp [closeRes] at h
          | mk a =>
            simp only [closeRes, Except.ok.injEq, Prod.mk.injEq] at h
            obtain ⟨h1, -⟩ := h
            subst h1
            exact hq

/-- C4, witness: releasing a third resource into the full pool `Pfull`
closes it once and leaves the pool unchanged. -/
theorem C4_witness :
    Pfull.closed = false ∧ Pfull.chClosed = false ∧
    Pfull.resources.length = Pfull.capacity ∧
    Pfull.Release (Res.mk 3) = Except.ok (Pfull, [Res.mk 3]) :=
  ⟨rfl, rfl, rfl,
    (C4_overflow_discard Pfull (Res.mk 3) rfl rfl rfl (by decide)).1⟩

/-- C5: once the pool is closed, `Release` of a (non-nil) resource closes
that resource immediately and does not insert it — the pool, in
particular its buffer, is unchanged. -/
theorem C5_post_close_discard {α : Type} (p : Pool α) (r : Res α)
    (hc : p.closed = true) (hr : r ≠ Res.nilRes) :
    p.Release r = Except.ok (p, [r]) := by
  cases r with
  | nilRes => exact absurd rfl hr
  | mk a =>
    rw [Pool.Release, hc]
    simp [closeRes]

/-- C5, witness: releasing into the closed pool `Pclosed` closes the
resource and buffers nothing. -/
theorem C5_witness :
    Pclosed.closed = true ∧
    Pclosed.Release (Res.mk 4) = Except.ok (Pclosed, [Res.mk 4]) :=
  ⟨rfl, C5_post_close_discard Pclosed (Res.mk 4) rfl (by decide)⟩

/-- C6: `New` rejects `size = 0` (the only `uint` value with
`size <= 0`) with the invalid-size error and no pool; for positive
`size` it returns a pool that is not closed, with an open channel, an
empty buffer bounded by `size`, and the given factory, and does nothing
else. -/
theorem C6_new_validation {α : Type} (fn : Unit → Res α × Option GoErr)
    (size : Nat) :
    (size = 0 → New fn size = Except.error GoErr.invalidSize) ∧
    (0 < size → New fn size = Except.ok
      { resources := [], capacity := size, chClosed := false,
        factory := fn, closed := false }) := by
  constructor
  · intro h; subst h; rfl
  · intro h
    rw [New, if_neg (by omega : ¬ size ≤ 0)]

/-- C6, witness at sizes 0 and 3. -/
theorem C6_witness :
    New f1 0 = Except.error GoErr.invalidSize ∧
    New f1 3 = Except.ok
      { resources := [], capacity := 3, chClosed := false,
        factory := f1, closed := false } :=
  ⟨(C6_new_validation f1 0).1 rfl, (C6_new_validation f1 3).2 (by decide)⟩

/-- C7: on an empty buffer with an open channel, `Acquire` invokes the
factory exactly once and returns its `(resource, error)` pair verbatim;
when a resource is buffered, `Acquire` returns it and the factory is not
invoked. -/
theorem C7_acquire_factory {α : Type} (p : Pool α) :
    (p.resources = [] → p.chClosed = false →
      p.Acquire = (p.factory (), p, true)) ∧
    (∀ (r : Res α) (rest : List (Res α)), p.resources = r :: rest →
      p.Acquire =
        ((r, (none : Option GoErr)), { p with resources := rest }, false)) := by
  constructor
  · intro h hch
    cases p with
    | mk res cap chc fn cl =>
      simp only at h hch
      subst h; subst hch
      rfl
  · intro r rest h
    cases p with
    | mk res cap chc fn cl =>
      simp only at h
      subst h
      rfl

/-- C7, witness: on the empty pool the factory pair is returned verbatim
with one factory call; on the one-resource pool the buffered resource is
returned with no factory call. -/
theorem C7_witness :
    Pempty.resources = [] ∧ Pempty.chClosed = false ∧
    Pempty.Acquire = (Pempty.factory (), Pempty, true) ∧
    Pone.resources = [Res.mk 1] ∧
    Pone.Acquire =
      ((Res.mk 1, (none : Option GoErr)), { Pone with resources := [] }, false) :=
  ⟨rfl, rfl, (C7_acquire_factory Pempty).1 rfl rfl, rfl,
    (C7_acquire_factory Pone).2 (Res.mk 1) [] rfl⟩

/-- C8: a resource released into a non-full, non-closed pool is appended
to the buffer, and the following `length + 1` acquisitions return every
buffered resource in order with no factory call — the released resource
is the last of them, returned before any new resource is created. -/
theorem C8_round_trip {α : Type} (p : Pool α) (r : Res α)
    (hc : p.closed = false) (hch : p.chClosed = false)
    (hlen : p.resources.length < p.capacity) :
    p.Release r =
      Except.ok ({ p with resources := p.resources ++ [r] }, []) ∧
    ({ p with resources := p.resources ++ [r] } : Pool α).acquireN
        (p.resources.length + 1) =
      ((p.resources ++ [r]).map (fun x => (x, (none : Option GoErr))),
        { p with resources := [] }, 0) ∧
    ((p.resources ++ [r]).map
        (fun x => (x, (none : Option GoErr)))).getLast? = some (r, none) := by
  refine ⟨?_, ?_, ?_⟩
  · rw [Pool.Release, hc, hch]
    simp [hlen]
  · have step := acquireN_buffered (p.resources ++ [r])
      { p with resources := p.resources ++ [r] } rfl hch
    simpa using step
  · simp

/-- C8, witness: a resource released into `Pone` is returned by the
second of the two following acquisitions, with no factory call. -/
theorem C8_witness :
    Pone.closed = false ∧ Pone.chClosed = false ∧
    Pone.resources.length < Pone.capacity ∧
    Pone.Release (Res.mk 9) =
      Except.ok ({ Pone with resources := Pone.resources ++ [Res.mk 9] }, []) ∧
    ({ Pone with resources := Pone.resources ++ [Res.mk 9] } : Pool Nat).acquireN
        (Pone.resources.length + 1) =
      ((Pone.resources ++ [Res.mk 9]).map
          (fun x => (x, (none : Option GoErr))),
        { Pone with resources := [] }, 0) :=
  ⟨rfl, rfl, by decide,
    (C8_round_trip Pone (Res.mk 9) rfl rfl (by decide)).1,
    (C8_round_trip Pone (Res.mk 9) rfl rfl (by decide)).2.1⟩

/-- C9: after a completed `Close` on a previously open pool, every
subsequent `Acquire` deterministically returns the nil resource with the
`PoolClosed` error and never invokes the factory: the receive on the
closed, drained channel is always ready, taking priority over the
`default` branch. -/
theorem C9_acquire_after_close {α : Type} (p p' : Pool α)
    (cs : List (Res α)) (hc : p.closed = false)
    (h : p.Close = Except.ok (p', cs)) :
    ∀ n, p'.acquireN n =
      (List.replicate n (Res.nilRes, some ErrPoolClosed), p', 0) := by
  obtain ⟨hp', -⟩ := Close_ok_inv hc h
  subst hp'
  exact acquireN_closedPool _ rfl rfl

/-- C9, witness: after closing `Pempty`, two consecutive acquisitions
both return `(nil, ErrPoolClosed)` with no factory call. -/
theorem C9_witness :
    Pempty.closed = false ∧ Pempty.Close = Except.ok (Pclosed, []) ∧
    Pclosed.acquireN 2 =
      (List.replicate 2 (Res.nilRes, some ErrPoolClosed), Pclosed, 0) :=
  ⟨rfl, rfl, C9_acquire_after_close Pempty Pclosed [] rfl rfl 2⟩

/-- C10: `Release` never checks its argument for nil — on a closed pool,
or on an open pool with a full buffer, `Release nil` calls `Close` on the
nil interface value and panics; on an open pool with free space it
buffers the nil value, which a later `Acquire` then returns as a
resource. -/
theorem C10_release_nil {α : Type} (p : Pool α) :
    (p.closed = true → p.Release Res.nilRes = Except.error ()) ∧
    (p.closed = false → p.chClosed = false →
      p.resources.length = p.capacity →
      p.Release Res.nilRes = Except.error ()) ∧
    (p.closed = false → p.chClosed = false →
      p.resources.length < p.capacity →
      p.Release Res.nilRes =
        Except.ok ({ p with resources := p.resources ++ [Res.nilRes] }, []) ∧
      ({ p with resources := p.resources ++ [Res.nilRes] } : Pool α).acquireN
          (p.resources.length + 1) =
        ((p.resources ++ [Res.nilRes]).map
            (fun x => (x, (none : Option GoErr))),
          { p with resources := [] }, 0)) := by
  refine ⟨?_, ?_, ?_⟩
  · intro hc
    rw [Pool.Release, hc]
    simp [closeRes]
  · intro hc hch hfull
    rw [Pool.Release, hc, hch]
    simp [hfull, closeRes]
  · intro hc hch hlt
    constructor
    · rw [Pool.Release, hc, hch]
      simp [hlt]
    · have step := acquireN_buffered (p.resources ++ [Res.nilRes])
        { p with resources := p.resources ++ [Res.nilRes] } rfl hch
      simpa using step

/-- C10, witness: releasing nil panics on the closed pool and on the full
open pool, while on `Pone` it buffers nil, which the second following
acquisition returns. -/
theorem C10_witness :
    Pclosed.closed = true ∧
    Pclosed.Release Res.nilRes = Except.error () ∧
    Pfull.Release Res.nilRes = Except.error () ∧
    Pone.Release Res.nilRes =
      Except.ok ({ Pone with resources := Pone.resources ++ [Res.nilRes] }, []) :=
  ⟨rfl, (C10_release_nil Pclosed).1 rfl,
    (C10_release_nil Pfull).2.1 rfl rfl rfl,
    ((C10_release_nil Pone).2.2 rfl rfl (by decide)).1⟩
